import Mathlib

/-!
# Verification of the SPIFFS employee record store (`spiff_main.c`)

Shallow embedding of the record-store core of
`Final Capstone Project/Viveksai/spiff_main.c`:

* the on-disk record encoding (`fprintf "%s\n%s\n%s\n%s\n%s\n"`) and the
  decoder (five `fscanf "%19[^\n]%*c"` calls with a `memset`-to-zero on any
  failure),
* the slot store (`write_employee_details` / `read_employee_details`) over a
  filesystem modelled as a map from slot index to optional file content,
* the record-table operations (`add_new_employee`,
  `get_employee_details_by_id`, `delete_employee_by_id`) and the global
  counter `num_employees`,
* the lock/IO event traces of the two slot-store functions, and
* the concrete seed-and-demo sequence of `app_main`.

Machine details of C that the embedding keeps: a field is a `char[20]`
C string (at most 19 content bytes); `%19[^\n]` fails on an empty line and
consumes at most 19 characters; `%*c` consumes exactly one further character
when one is available; on `fopen` failure `read_employee_details` returns
early without touching the caller's output buffer, so the caller's previous
(possibly uninitialized) content survives — that buffer is the explicit
`prior` argument below.
-/

set_option autoImplicit false

namespace Spiffs

/-- `#define MAX_ROWS 10` -/
def MAX_ROWS : Nat := 10

/-- `#define MAX_FIELD_SIZE 20` — each field is a `char[20]`, so at most 19
content characters. -/
def MAX_FIELD_SIZE : Nat := 20

/-- The `EmployeeDetails` struct: five C-string fields.  A Lean `String`
models the content of the C string up to its terminator. -/
structure EmployeeDetails where
  Employee_Name : String
  Employee_ID : String
  Employee_Age : String
  Employee_Position : String
  Employee_Salary : String
deriving DecidableEq

/-- The all-zero record produced by `memset(e, 0, sizeof(EmployeeDetails))`:
every C string in it is empty. -/
def zeroRecord : EmployeeDetails := ⟨"", "", "", "", ""⟩

/-- The storage namespace: slot index ↦ content of `/spiffs/data_<i>.txt`,
`none` when the file does not exist (its `fopen` fails). -/
abbrev FS := Nat → Option (List Char)

/-- The empty filesystem (no slot file present yet). -/
def fsEmpty : FS := fun _ => none

/-- The bytes `fprintf(file, "%s\n%s\n%s\n%s\n%s\n", ...)` writes for a
record: the five fields in order, each terminated by a newline. -/
def encode (e : EmployeeDetails) : List Char :=
  e.Employee_Name.data ++ '\n' ::
    (e.Employee_ID.data ++ '\n' ::
      (e.Employee_Age.data ++ '\n' ::
        (e.Employee_Position.data ++ '\n' ::
          (e.Employee_Salary.data ++ ['\n']))))

/-- One `fscanf(file, "%19[^\n]%*c", buf)` call on the remaining input.
`%19[^\n]` matches a maximal non-empty run of non-newline characters, at
most `MAX_FIELD_SIZE - 1 = 19` of them; on an empty run (empty line or end
of input) the conversion fails and `fscanf` does not return 1.  On success
`%*c` consumes one further character when one is available. -/
def scanField (input : List Char) : Option (String × List Char) :=
  let field := (input.takeWhile (fun c => c ≠ '\n')).take (MAX_FIELD_SIZE - 1)
  if field.isEmpty then none
  else some (⟨field⟩, (input.drop field.length).drop 1)

/-- The five-field decode chain of `read_employee_details`: each `fscanf`
must succeed; the first failure aborts (the C code then `memset`s the whole
record to zero, see `read_employee_details`). -/
def decodeFields (content : List Char) : Option EmployeeDetails :=
  match scanField content with
  | none => none
  | some (name, r1) =>
    match scanField r1 with
    | none => none
    | some (id, r2) =>
      match scanField r2 with
      | none => none
      | some (age, r3) =>
        match scanField r3 with
        | none => none
        | some (position, r4) =>
          match scanField r4 with
          | none => none
          | some (salary, _) => some ⟨name, id, age, position, salary⟩

/-- `write_employee_details(i, e)`: opens `/spiffs/data_<i>.txt` with mode
`"w"` (truncate) and writes `encode e`.  The model treats the open as
succeeding; on open failure the C code leaves the filesystem unchanged. -/
def write_employee_details (fs : FS) (employee_index : Nat)
    (employee : EmployeeDetails) : FS :=
  fun j => if j = employee_index then some (encode employee) else fs j

/-- `read_employee_details(i, e)`: `prior` is the content of the caller's
`EmployeeDetails` buffer before the call.  If `fopen` fails (no file) the C
function returns early without touching the buffer, so the result is
`prior`.  Otherwise the five `fscanf`s run: any failure `memset`s the whole
buffer to zero, success stores the five parsed fields. -/
def read_employee_details (fs : FS) (employee_index : Nat)
    (prior : EmployeeDetails) : EmployeeDetails :=
  match fs employee_index with
  | none => prior
  | some content =>
    match decodeFields content with
    | none => zeroRecord
    | some e => e

/-- `snprintf(dst, MAX_FIELD_SIZE, "%s", src)`: copies `src` truncated to at
most 19 characters (plus the terminator). -/
def truncField (s : String) : String := ⟨s.data.take (MAX_FIELD_SIZE - 1)⟩

/-- The scan loop of `get_employee_details_by_id`, starting at slot `i` with
`fuel` slots left to visit.  `junk` is the content of the uninitialized
stack variable `current_employee`, which `read_employee_details` leaves in
place when the slot file cannot be opened. -/
def get_from (fs : FS) (junk : EmployeeDetails) (employee_id : String) :
    Nat → Nat → EmployeeDetails
  | _, 0 => zeroRecord
  | i, fuel + 1 =>
    let current := read_employee_details fs i junk
    if current.Employee_ID = employee_id then current
    else get_from fs junk employee_id (i + 1) fuel

/-- `get_employee_details_by_id(id, e)`: scans slots `0 .. MAX_ROWS - 1` in
ascending order and copies the first record whose `Employee_ID` compares
equal (`strcmp == 0`) to `id`; if none matches, `memset`s the output to
zero. -/
def get_employee_details_by_id (fs : FS) (junk : EmployeeDetails)
    (employee_id : String) : EmployeeDetails :=
  get_from fs junk employee_id 0 MAX_ROWS

/-- The scan loop of `delete_employee_by_id`.  Returns the filesystem after
the call and `true` when a matching slot was found and overwritten with the
zero record (the C code logs "deleted successfully"), `false` when the scan
ends without a match (the C code logs "not found"). -/
def delete_from (fs : FS) (junk : EmployeeDetails) (employee_id : String) :
    Nat → Nat → FS × Bool
  | _, 0 => (fs, false)
  | i, fuel + 1 =>
    let current := read_employee_details fs i junk
    if current.Employee_ID = employee_id then
      (write_employee_details fs i zeroRecord, true)
    else delete_from fs junk employee_id (i + 1) fuel

/-- `delete_employee_by_id(id)`: ascending scan over slots
`0 .. MAX_ROWS - 1`; on the first record whose `Employee_ID` equals `id` it
`memset`s a record to zero and writes it to that slot, then returns. -/
def delete_employee_by_id (fs : FS) (junk : EmployeeDetails)
    (employee_id : String) : FS × Bool :=
  delete_from fs junk employee_id 0 MAX_ROWS

/-- The process-wide mutable state the record table touches: the slot files
and the global counter `int num_employees`. -/
structure Store where
  fs : FS
  num_employees : Nat

/-- `add_new_employee(name, id, age, position, salary)`: rejects when
`num_employees >= MAX_ROWS` (logs "Database is full", no write); otherwise
builds a record with each field `snprintf`-truncated, writes it to slot
`num_employees`, then increments the counter.  The `Bool` is `true` when
the employee was added, `false` on the capacity-exceeded early return. -/
def add_new_employee (st : Store) (name id age position salary : String) :
    Store × Bool :=
  if st.num_employees ≥ MAX_ROWS then (st, false)
  else
    let new_employee : EmployeeDetails :=
      ⟨truncField name, truncField id, truncField age,
        truncField position, truncField salary⟩
    (⟨write_employee_details st.fs st.num_employees new_employee,
      st.num_employees + 1⟩, true)

/-- The record-table operations, as one step relation over `Store`:
a direct seed write (the `write_employee_details` calls in `app_main`),
an insertion, a deletion, and a lookup.  The `junk` arguments are the
uninitialized scan buffers. -/
inductive TableOp where
  | writeSlotOp (i : Nat) (e : EmployeeDetails)
  | insertOp (name id age position salary : String)
  | deleteOp (employee_id : String) (junk : EmployeeDetails)
  | findOp (employee_id : String) (junk : EmployeeDetails)

/-- Effect of one table operation on the shared state.  `findOp` reads but
writes nothing; `deleteOp` never touches `num_employees` (the C function
does not mention the counter). -/
def stepOp (st : Store) : TableOp → Store
  | .writeSlotOp i e => ⟨write_employee_details st.fs i e, st.num_employees⟩
  | .insertOp name id age position salary =>
      (add_new_employee st name id age position salary).1
  | .deleteOp employee_id junk =>
      ⟨(delete_employee_by_id st.fs junk employee_id).1, st.num_employees⟩
  | .findOp _ _ => st

/-- A field value that survives the codec unchanged: representable in a
`char[20]` C string (non-empty would not be required by the type, but the
`%[^\n]` conversion fails on an empty line), at most 19 characters, and
newline-free (a newline inside a C string would split the encoded line). -/
def goodField (s : String) : Prop :=
  s.data ≠ [] ∧ s.data.length ≤ MAX_FIELD_SIZE - 1 ∧ '\n' ∉ s.data

instance (s : String) : Decidable (goodField s) := by
  unfold goodField; infer_instance

/-- All five fields of the record survive the codec. -/
def goodRecord (e : EmployeeDetails) : Prop :=
  goodField e.Employee_Name ∧ goodField e.Employee_ID ∧
    goodField e.Employee_Age ∧ goodField e.Employee_Position ∧
    goodField e.Employee_Salary

instance (e : EmployeeDetails) : Decidable (goodRecord e) := by
  unfold goodRecord; infer_instance

/-! ## Lock and IO event traces

`lock_spiffs` / `unlock_spiffs` wrap `xSemaphoreTake(spiffs_mutex,
portMAX_DELAY)` / `xSemaphoreGive(spiffs_mutex)`.  The traces below list, in
program order, the lock and file events each control-flow path of
`write_employee_details` and `read_employee_details` performs. -/

/-- One lock or file event of the slot store. -/
inductive IOEvent where
  | lockTake
  | lockGive
  | openWrite (ok : Bool)
  | openRead (ok : Bool)
  | filePrint
  | fileClose
  | fieldScan
deriving DecidableEq

/-- Event trace of `write_employee_details`: take the mutex, `fopen` in mode
`"w"`; on failure log and return (giving the mutex back), otherwise
`fprintf`, `fclose`, give the mutex back. -/
def write_details_trace (openOk : Bool) : List IOEvent :=
  if openOk then
    [.lockTake, .openWrite true, .filePrint, .fileClose, .lockGive]
  else
    [.lockTake, .openWrite false, .lockGive]

/-- The `fscanf` events of the decode chain: one `fieldScan` per executed
`fscanf`, at most `n` of them, stopping after the first failed scan (the
`else if` chain skips the rest). -/
def scan_trace : Nat → List Char → List IOEvent
  | 0, _ => []
  | n + 1, content =>
    match scanField content with
    | none => [.fieldScan]
    | some (_, rest) => .fieldScan :: scan_trace n rest

/-- Event trace of `read_employee_details` given the slot file's content
(`none` = `fopen` fails): take the mutex; on open failure log and return
(giving the mutex back); otherwise run the five-`fscanf` chain, `fclose`,
give the mutex back. -/
def read_details_trace (file : Option (List Char)) : List IOEvent :=
  match file with
  | none => [.lockTake, .openRead false, .lockGive]
  | some content =>
    .lockTake :: .openRead true ::
      (scan_trace 5 content ++ [.fileClose, .lockGive])

/-! ## The `app_main` demo sequence -/

/-- The ten seed records `app_main` writes directly to slots 0–9. -/
def seedEmployees : List EmployeeDetails :=
  [⟨"JohnDoe", "EMP001", "30", "SeniorEngineer", "50000"⟩,
   ⟨"JaneSmith", "EMP002", "35", "Manager", "70000"⟩,
   ⟨"Ravi", "EMP003", "28", "SeniorExecutive", "40000"⟩,
   ⟨"Raju", "EMP004", "29", "JuniorExecutive", "30000"⟩,
   ⟨"Vivek", "EMP005", "21", "CEO", "100000"⟩,
   ⟨"Monoj", "EMP006", "25", "MarketingExecutive", "40000"⟩,
   ⟨"Harish", "EMP007", "25", "JuniorEngineer", "40000"⟩,
   ⟨"Ankit", "EMP008", "26", "SalesExecutive", "30000"⟩,
   ⟨"Sai", "EMP009", "26", "Developer", "25000"⟩,
   ⟨"Eswar", "EMP010", "28", "TeamLead", "40000"⟩]

/-- The seed loop `for (i = 0; i < MAX_ROWS; i++) write_employee_details(i,
&employees[i])`, writing `l[k]` to slot `i + k`.  It does not touch
`num_employees`. -/
def seedWrites (fs : FS) : Nat → List EmployeeDetails → FS
  | _, [] => fs
  | i, e :: rest => seedWrites (write_employee_details fs i e) (i + 1) rest

/-- The state right after the seed loop: slots 0–9 hold the seed records,
`num_employees` is still 0. -/
def seededStore : Store := ⟨seedWrites fsEmpty 0 seedEmployees, 0⟩

/-- The state after the four `add_new_employee` calls of `app_main`. -/
def demoAfterInserts : Store :=
  (add_new_employee
    (add_new_employee
      (add_new_employee
        (add_new_employee seededStore
          "New Employee 1" "EMP011" "25" "New Position 1" "60000").1
        "New Employee 2" "EMP012" "27" "New Position 2" "65000").1
      "New Employee 3" "EMP013" "29" "New Position 3" "70000").1
    "New Employee 4" "EMP014" "30" "New Position 4" "75000").1

end Spiffs

namespace Spiffs

-- sanity: decoding the encoded zero record fails at the first empty line
example : decodeFields (encode zeroRecord) = none := rfl

-- sanity: a fully non-empty record round-trips
example :
    read_employee_details
      (write_employee_details fsEmpty 3 ⟨"JohnDoe", "EMP001", "30", "SeniorEngineer", "50000"⟩)
      3 zeroRecord = ⟨"JohnDoe", "EMP001", "30", "SeniorEngineer", "50000"⟩ := rfl

-- sanity: demo state after the four inserts
example : demoAfterInserts.num_employees = 4 := rfl
example : demoAfterInserts.fs 0 =
    some (encode ⟨"New Employee 1", "EMP011", "25", "New Position 1", "60000"⟩) := rfl
example : demoAfterInserts.fs 5 =
    some (encode ⟨"Monoj", "EMP006", "25", "MarketingExecutive", "40000"⟩) := rfl
example :
    (delete_employee_by_id demoAfterInserts.fs zeroRecord "EMP006").2 = true := rfl
example :
    (delete_employee_by_id demoAfterInserts.fs zeroRecord "EMP006").1 5 =
      some (encode zeroRecord) := rfl

end Spiffs

namespace Spiffs

/-! ## Codec lemmas -/

theorem takeWhile_append_cons {α : Type} (p : α → Bool) (l : List α) (a : α)
    (r : List α) (hl : ∀ x ∈ l, p x = true) (ha : p a = false) :
    (l ++ a :: r).takeWhile p = l := by
  induction l with
  | nil => simp [List.takeWhile_cons, ha]
  | cons x xs ih =>
    have hx : p x = true := hl x (List.mem_cons_self x xs)
    simp only [List.cons_append, List.takeWhile_cons, hx, if_true]
    rw [ih fun y hy => hl y (List.mem_cons_of_mem x hy)]

/-- `%19[^\n]%*c` on a well-formed encoded line parses the whole field and
consumes the terminating newline. -/
theorem scanField_encodeLine (f : String) (rest : List Char)
    (hne : f.data ≠ []) (hlen : f.data.length ≤ MAX_FIELD_SIZE - 1)
    (hnl : '\n' ∉ f.data) :
    scanField (f.data ++ '\n' :: rest) = some (f, rest) := by
  have htw : (f.data ++ '\n' :: rest).takeWhile (fun c => c ≠ '\n') = f.data := by
    refine takeWhile_append_cons _ _ _ _ (fun x hx => ?_) (by simp)
    simp only [ne_eq, decide_eq_true_eq]
    exact fun h => hnl (h ▸ hx)
  unfold scanField
  rw [htw, List.take_of_length_le hlen]
  rw [if_neg (by simpa [List.isEmpty_iff] using hne)]
  rw [List.drop_left f.data ('\n' :: rest)]
  rfl

/-- Decoding the encoding of a record with all-good fields recovers the
record exactly. -/
theorem decodeFields_encode (e : EmployeeDetails) (h : goodRecord e) :
    decodeFields (encode e) = some e := by
  obtain ⟨⟨h1a, h1b, h1c⟩, ⟨h2a, h2b, h2c⟩, ⟨h3a, h3b, h3c⟩,
    ⟨h4a, h4b, h4c⟩, ⟨h5a, h5b, h5c⟩⟩ := h
  simp only [encode, decodeFields, scanField_encodeLine _ _ h1a h1b h1c,
    scanField_encodeLine _ _ h2a h2b h2c, scanField_encodeLine _ _ h3a h3b h3c,
    scanField_encodeLine _ _ h4a h4b h4c, scanField_encodeLine _ _ h5a h5b h5c]

/-- Reading back the slot just written. -/
theorem read_write_same (fs : FS) (i : Nat) (e : EmployeeDetails)
    (prior : EmployeeDetails) :
    read_employee_details (write_employee_details fs i e) i prior =
      match decodeFields (encode e) with
      | none => zeroRecord
      | some d => d := by
  unfold read_employee_details write_employee_details
  rw [if_pos rfl]

/-- A write leaves every other slot's file unchanged. -/
theorem write_other (fs : FS) (i j : Nat) (e : EmployeeDetails) (hij : j ≠ i) :
    write_employee_details fs i e j = fs j := by
  unfold write_employee_details
  rw [if_neg hij]

/-- Claim C1: a record whose five fields are each non-empty, at most
`MAX_FIELD_SIZE - 1` characters and newline-free is read back verbatim from
the slot it was just written to, whatever the previous content of the
caller's buffer; this is the amended round-trip — a record with an empty
field (see `C1_roundtrip_counterexample`) decodes back as the all-zero
record instead. -/
theorem C1_roundtrip_amended (fs : FS) (i : Nat) (prior e : EmployeeDetails)
    (h : goodRecord e) :
    read_employee_details (write_employee_details fs i e) i prior = e := by
  rw [read_write_same, decodeFields_encode e h]

/-- Claim C1, witness for the amended round-trip at a concrete record. -/
theorem C1_roundtrip_witness :
    goodRecord ⟨"JohnDoe", "EMP001", "30", "SeniorEngineer", "50000"⟩ ∧
      read_employee_details
        (write_employee_details fsEmpty 2
          ⟨"JohnDoe", "EMP001", "30", "SeniorEngineer", "50000"⟩) 2 zeroRecord =
        ⟨"JohnDoe", "EMP001", "30", "SeniorEngineer", "50000"⟩ :=
  ⟨by decide, C1_roundtrip_amended fsEmpty 2 zeroRecord _ (by decide)⟩

/-- Claim C1, counterexample to the claim as stated: the record
`⟨"X", "", "", "", ""⟩` fits the maximum field width, yet reading it back
immediately after writing it yields the all-zero record, because
`%19[^\n]` fails on the empty `Employee_ID` line and the reader `memset`s
the whole record. -/
theorem C1_roundtrip_counterexample :
    read_employee_details
        (write_employee_details fsEmpty 0 ⟨"X", "", "", "", ""⟩) 0 zeroRecord ≠
      ⟨"X", "", "", "", ""⟩ := by
  decide

end Spiffs

namespace Spiffs

/-! ## Scan-loop lemmas -/

/-- A read never sees the write to a different slot. -/
theorem read_write_other (fs : FS) (i j : Nat) (e : EmployeeDetails)
    (prior : EmployeeDetails) (hij : j ≠ i) :
    read_employee_details (write_employee_details fs i e) j prior =
      read_employee_details fs j prior := by
  unfold read_employee_details
  rw [write_other fs i j e hij]

/-- The lookup loop returns the record of the first matching slot. -/
theorem get_from_found (fs : FS) (junk : EmployeeDetails) (employee_id : String) :
    ∀ (fuel i i₀ : Nat), i ≤ i₀ → i₀ < i + fuel →
      (read_employee_details fs i₀ junk).Employee_ID = employee_id →
      (∀ j, i ≤ j → j < i₀ →
        (read_employee_details fs j junk).Employee_ID ≠ employee_id) →
      get_from fs junk employee_id i fuel = read_employee_details fs i₀ junk := by
  intro fuel
  induction fuel with
  | zero => intro i i₀ h1 h2 _ _; omega
  | succ n ih =>
    intro i i₀ h1 h2 hmatch hbefore
    by_cases hcase : (read_employee_details fs i junk).Employee_ID = employee_id
    · have hii : i = i₀ := by
        by_contra hne
        exact hbefore i (le_refl i) (lt_of_le_of_ne h1 hne) hcase
      subst hii
      simp [get_from, hcase]
    · simp only [get_from, if_neg hcase]
      have hii : i ≠ i₀ := fun h => hcase (h ▸ hmatch)
      exact ih (i + 1) i₀ (by omega) (by omega) hmatch
        (fun j hj1 hj2 => hbefore j (by omega) hj2)

/-- The lookup loop returns the zero record when no visited slot matches. -/
theorem get_from_not_found (fs : FS) (junk : EmployeeDetails)
    (employee_id : String) :
    ∀ (fuel i : Nat),
      (∀ j, i ≤ j → j < i + fuel →
        (read_employee_details fs j junk).Employee_ID ≠ employee_id) →
      get_from fs junk employee_id i fuel = zeroRecord := by
  intro fuel
  induction fuel with
  | zero => intro i _; simp [get_from]
  | succ n ih =>
    intro i h
    have hi : (read_employee_details fs i junk).Employee_ID ≠ employee_id :=
      h i (le_refl i) (by omega)
    simp only [get_from, if_neg hi]
    exact ih (i + 1) (fun j hj1 hj2 => h j (by omega) (by omega))

/-- The delete loop zeroes the first matching slot and reports success. -/
theorem delete_from_found (fs : FS) (junk : EmployeeDetails)
    (employee_id : String) :
    ∀ (fuel i i₀ : Nat), i ≤ i₀ → i₀ < i + fuel →
      (read_employee_details fs i₀ junk).Employee_ID = employee_id →
      (∀ j, i ≤ j → j < i₀ →
        (read_employee_details fs j junk).Employee_ID ≠ employee_id) →
      delete_from fs junk employee_id i fuel =
        (write_employee_details fs i₀ zeroRecord, true) := by
  intro fuel
  induction fuel with
  | zero => intro i i₀ h1 h2 _ _; omega
  | succ n ih =>
    intro i i₀ h1 h2 hmatch hbefore
    by_cases hcase : (read_employee_details fs i junk).Employee_ID = employee_id
    · have hii : i = i₀ := by
        by_contra hne
        exact hbefore i (le_refl i) (lt_of_le_of_ne h1 hne) hcase
      subst hii
      simp [delete_from, hcase]
    · simp only [delete_from, if_neg hcase]
      have hii : i ≠ i₀ := fun h => hcase (h ▸ hmatch)
      exact ih (i + 1) i₀ (by omega) (by omega) hmatch
        (fun j hj1 hj2 => hbefore j (by omega) hj2)

/-- The delete loop reports not-found and leaves the filesystem alone when
no visited slot matches. -/
theorem delete_from_not_found (fs : FS) (junk : EmployeeDetails)
    (employee_id : String) :
    ∀ (fuel i : Nat),
      (∀ j, i ≤ j → j < i + fuel →
        (read_employee_details fs j junk).Employee_ID ≠ employee_id) →
      delete_from fs junk employee_id i fuel = (fs, false) := by
  intro fuel
  induction fuel with
  | zero => intro i _; simp [delete_from]
  | succ n ih =>
    intro i h
    have hi : (read_employee_details fs i junk).Employee_ID ≠ employee_id :=
      h i (le_refl i) (by omega)
    simp only [delete_from, if_neg hi]
    exact ih (i + 1) (fun j hj1 hj2 => h j (by omega) (by omega))

/-- Claim C6: `get_employee_details_by_id` returns the record the ascending
slot scan sees at the lowest-indexed slot whose decoded `Employee_ID`
equals the key, and the all-zero record when none of the `MAX_ROWS`
scanned slots matches.  The function takes no occupancy counter at all
(`num_employees` does not appear in its signature), so the full scan runs
regardless of the counter's value. -/
theorem C6_find_by_id (fs : FS) (junk : EmployeeDetails) (employee_id : String) :
    (∀ i₀, i₀ < MAX_ROWS →
      (read_employee_details fs i₀ junk).Employee_ID = employee_id →
      (∀ j, j < i₀ →
        (read_employee_details fs j junk).Employee_ID ≠ employee_id) →
      get_employee_details_by_id fs junk employee_id =
        read_employee_details fs i₀ junk) ∧
    ((∀ i, i < MAX_ROWS →
        (read_employee_details fs i junk).Employee_ID ≠ employee_id) →
      get_employee_details_by_id fs junk employee_id = zeroRecord) := by
  constructor
  · intro i₀ h1 h2 h3
    exact get_from_found fs junk employee_id MAX_ROWS 0 i₀ (Nat.zero_le _)
      (by omega) h2 (fun j _ hj2 => h3 j hj2)
  · intro h
    exact get_from_not_found fs junk employee_id MAX_ROWS 0
      (fun j _ hj2 => h j (by omega))

/-- Claim C6, witness: in the seeded demo store, looking up `"EMP001"`
returns the record read from slot 0. -/
theorem C6_find_by_id_witness :
    get_employee_details_by_id seededStore.fs zeroRecord "EMP001" =
      read_employee_details seededStore.fs 0 zeroRecord :=
  (C6_find_by_id seededStore.fs zeroRecord "EMP001").1 0 (by decide) (by decide)
    (fun j hj => absurd hj (Nat.not_lt_zero j))

/-- Claim C10: an empty key matches the first slot that reads back as the
all-zero record (a deleted or blank slot): the lookup returns that all-zero
record as a match, and the delete re-zeroes that slot and reports success
rather than not-found. -/
theorem C10_empty_key_matches_blank (fs : FS) (junk : EmployeeDetails)
    (i₀ : Nat) (hi : i₀ < MAX_ROWS)
    (hzero : read_employee_details fs i₀ junk = zeroRecord)
    (hbefore : ∀ j, j < i₀ →
      (read_employee_details fs j junk).Employee_ID ≠ "") :
    get_employee_details_by_id fs junk "" = zeroRecord ∧
    delete_employee_by_id fs junk "" =
      (write_employee_details fs i₀ zeroRecord, true) := by
  have hmatch : (read_employee_details fs i₀ junk).Employee_ID = "" := by
    rw [hzero]; rfl
  constructor
  · have hget := get_from_found fs junk "" MAX_ROWS 0 i₀ (Nat.zero_le _)
      (by omega) hmatch (fun j _ hj2 => hbefore j hj2)
    rw [get_employee_details_by_id, hget, hzero]
  · exact delete_from_found fs junk "" MAX_ROWS 0 i₀ (Nat.zero_le _)
      (by omega) hmatch (fun j _ hj2 => hbefore j hj2)

/-- Claim C10, witness: with slot 0 holding an encoded all-zero record
(a soft-deleted slot), looking up the empty key "matches" and the delete
"succeeds". -/
theorem C10_empty_key_witness :
    get_employee_details_by_id (write_employee_details fsEmpty 0 zeroRecord)
        zeroRecord "" = zeroRecord ∧
    delete_employee_by_id (write_employee_details fsEmpty 0 zeroRecord)
        zeroRecord "" =
      (write_employee_details (write_employee_details fsEmpty 0 zeroRecord) 0
        zeroRecord, true) :=
  C10_empty_key_matches_blank (write_employee_details fsEmpty 0 zeroRecord)
    zeroRecord 0 (by decide) (by decide) (fun j hj => absurd hj (Nat.not_lt_zero j))

end Spiffs

namespace Spiffs

/-- Claim C2, counterexample to the claim as stated: in the literal
`app_main` sequence (seed EMP001–EMP010 into slots 0–9, then four inserts
that overwrite slots 0–3), `delete_employee_by_id("EMP006")` does NOT
return NotFound — the seeded EMP006 record is still in slot 5, untouched by
the inserts, so the delete finds it, zeroes slot 5, and reports success. -/
theorem C2_demo_counterexample :
    (delete_employee_by_id demoAfterInserts.fs zeroRecord "EMP006").2 = true ∧
    (delete_employee_by_id demoAfterInserts.fs zeroRecord "EMP006").1 5 =
      some (encode zeroRecord) := ⟨rfl, rfl⟩

/-- Claim C2, amended: after the seed writes (which leave `num_employees`
at 0) the four inserts occupy slots 0–3 — overwriting the first four seeded
records — and set `num_employees = 4`; the seeded records EMP005 and EMP006
remain in slots 4 and 5, so the subsequent `delete_employee_by_id("EMP006")`
finds EMP006 in slot 5, overwrites that slot with the all-zero record, and
returns success (not NotFound). -/
theorem C2_demo_amended :
    demoAfterInserts.num_employees = 4 ∧
    demoAfterInserts.fs 0 =
      some (encode ⟨"New Employee 1", "EMP011", "25", "New Position 1", "60000"⟩) ∧
    demoAfterInserts.fs 1 =
      some (encode ⟨"New Employee 2", "EMP012", "27", "New Position 2", "65000"⟩) ∧
    demoAfterInserts.fs 2 =
      some (encode ⟨"New Employee 3", "EMP013", "29", "New Position 3", "70000"⟩) ∧
    demoAfterInserts.fs 3 =
      some (encode ⟨"New Employee 4", "EMP014", "30", "New Position 4", "75000"⟩) ∧
    demoAfterInserts.fs 4 =
      some (encode ⟨"Vivek", "EMP005", "21", "CEO", "100000"⟩) ∧
    demoAfterInserts.fs 5 =
      some (encode ⟨"Monoj", "EMP006", "25", "MarketingExecutive", "40000"⟩) ∧
    delete_employee_by_id demoAfterInserts.fs zeroRecord "EMP006" =
      (write_employee_details demoAfterInserts.fs 5 zeroRecord, true) :=
  ⟨rfl, rfl, rfl, rfl, rfl, rfl, rfl, rfl⟩

/-- Claim C3, counterexample to the claim as stated: when the slot file
cannot be opened (slot 7 of the empty filesystem), `read_employee_details`
returns early WITHOUT writing the output record, so the caller's previous
buffer content — here a non-blank record — survives instead of the promised
all-zero record. -/
theorem C3_open_failure_counterexample :
    read_employee_details fsEmpty 7 ⟨"Junk", "JNK042", "99", "None", "0"⟩ ≠
      zeroRecord := by
  decide

/-- Claim C3, amended: on decode failure `read_employee_details` does
return the all-zero record and never a partial mix (the whole record is
`memset` to zero at the first failed field scan, and when the file is
present the result does not depend on the caller's prior buffer at all);
but on OPEN failure it returns early leaving the caller's buffer exactly
as it was, which for the scanning callers is uninitialized stack content,
not an all-zero record. -/
theorem C3_read_failure_amended (fs : FS) (i : Nat) (prior : EmployeeDetails) :
    (fs i = none → read_employee_details fs i prior = prior) ∧
    (∀ content, fs i = some content →
      read_employee_details fs i prior = read_employee_details fs i zeroRecord ∧
      (decodeFields content = none →
        read_employee_details fs i prior = zeroRecord) ∧
      (∀ e, decodeFields content = some e →
        read_employee_details fs i prior = e)) := by
  refine ⟨fun h => ?_, fun content h => ⟨?_, fun hd => ?_, fun e hd => ?_⟩⟩
  · unfold read_employee_details; rw [h]
  · unfold read_employee_details; rw [h]
  · unfold read_employee_details
    rw [h]
    show (match decodeFields content with
      | none => zeroRecord
      | some e => e) = zeroRecord
    rw [hd]
  · unfold read_employee_details
    rw [h]
    show (match decodeFields content with
      | none => zeroRecord
      | some d => d) = e
    rw [hd]

/-- Claim C3, witness: the open-failure branch at slot 7 of the empty
filesystem hands back the caller's prior buffer. -/
theorem C3_read_failure_witness :
    read_employee_details fsEmpty 7 ⟨"Junk", "JNK042", "99", "None", "0"⟩ =
      ⟨"Junk", "JNK042", "99", "None", "0"⟩ :=
  (C3_read_failure_amended fsEmpty 7 ⟨"Junk", "JNK042", "99", "None", "0"⟩).1 rfl

/-- Claim C4: with `num_employees >= MAX_ROWS`, `add_new_employee` takes the
capacity-exceeded early return: the whole store — every slot file and the
counter — is returned exactly as it was, and the failure flag is
reported. -/
theorem C4_capacity_exceeded (st : Store)
    (name id age position salary : String)
    (h : st.num_employees ≥ MAX_ROWS) :
    add_new_employee st name id age position salary = (st, false) := by
  unfold add_new_employee
  rw [if_pos h]

/-- Claim C4, witness: inserting into a store whose counter already
reached `MAX_ROWS` changes nothing. -/
theorem C4_capacity_witness :
    (Store.mk seededStore.fs MAX_ROWS).num_employees ≥ MAX_ROWS ∧
    add_new_employee (Store.mk seededStore.fs MAX_ROWS)
        "Late" "EMP099" "44" "Extra" "123" =
      (Store.mk seededStore.fs MAX_ROWS, false) :=
  ⟨by decide,
    C4_capacity_exceeded (Store.mk seededStore.fs MAX_ROWS)
      "Late" "EMP099" "44" "Extra" "123" (by decide)⟩

end Spiffs

namespace Spiffs

/-- Claim C5, counterexample to the claim as stated: inserting a second
record with an identifier already present in a lower slot does increment
the counter and write slot `num_employees`, but the subsequent
`get_employee_details_by_id` of that identifier returns the LOWER slot's
record (`"OldName"`), not the just-inserted fields (`"NewName"`), because
the scan stops at the first match. -/
theorem C5_insert_find_counterexample :
    (get_employee_details_by_id
        (add_new_employee
          ⟨write_employee_details fsEmpty 0 ⟨"OldName", "EMP001", "40", "OldPos", "1000"⟩, 1⟩
          "NewName" "EMP001" "22" "NewPos" "2000").1.fs
        zeroRecord "EMP001").Employee_Name = "OldName" ∧
    ("OldName" : String) ≠ "NewName" := by
  exact ⟨rfl, by decide⟩

/-- Claim C5, amended: with `num_employees < MAX_ROWS`,
`add_new_employee` reports success, writes the record built from the five
`snprintf`-truncated fields to slot `num_employees`, and increments the
counter by exactly 1; and the subsequent lookup of the (truncated)
identifier returns the inserted truncated fields PROVIDED each truncated
field is non-empty and newline-free and no slot below `num_employees`
already reads back with that identifier. -/
theorem C5_insert_amended (st : Store) (junk : EmployeeDetails)
    (name id age position salary : String)
    (hcap : st.num_employees < MAX_ROWS)
    (hgood : goodRecord ⟨truncField name, truncField id, truncField age,
      truncField position, truncField salary⟩)
    (hfresh : ∀ j, j < st.num_employees →
      (read_employee_details st.fs j junk).Employee_ID ≠ truncField id) :
    (add_new_employee st name id age position salary).2 = true ∧
    (add_new_employee st name id age position salary).1.num_employees =
      st.num_employees + 1 ∧
    (add_new_employee st name id age position salary).1.fs =
      write_employee_details st.fs st.num_employees
        ⟨truncField name, truncField id, truncField age, truncField position,
          truncField salary⟩ ∧
    get_employee_details_by_id
        (add_new_employee st name id age position salary).1.fs junk
        (truncField id) =
      ⟨truncField name, truncField id, truncField age, truncField position,
        truncField salary⟩ := by
  have hnotfull : ¬ st.num_employees ≥ MAX_ROWS := by omega
  have hadd : add_new_employee st name id age position salary =
      (⟨write_employee_details st.fs st.num_employees
          ⟨truncField name, truncField id, truncField age, truncField position,
            truncField salary⟩,
        st.num_employees + 1⟩, true) := by
    unfold add_new_employee
    rw [if_neg hnotfull]
  have hreadn :
      read_employee_details
        (write_employee_details st.fs st.num_employees
          ⟨truncField name, truncField id, truncField age, truncField position,
            truncField salary⟩)
        st.num_employees junk =
      ⟨truncField name, truncField id, truncField age, truncField position,
        truncField salary⟩ := by
    rw [read_write_same, decodeFields_encode _ hgood]
  refine ⟨by rw [hadd], by rw [hadd], by rw [hadd], ?_⟩
  rw [hadd]
  have hget := get_from_found
    (write_employee_details st.fs st.num_employees
      ⟨truncField name, truncField id, truncField age, truncField position,
        truncField salary⟩)
    junk (truncField id) MAX_ROWS 0 st.num_employees (Nat.zero_le _)
    (by omega) (by rw [hreadn]) (fun j _ hj => by
      rw [read_write_other st.fs st.num_employees j _ junk (by omega)]
      exact hfresh j hj)
  unfold get_employee_details_by_id
  rw [hget, hreadn]

/-- Claim C5, witness: inserting `"Zed"/"EMP099"` into the freshly seeded
store (whose counter is still 0, so no lower slot can shadow the key). -/
theorem C5_insert_witness :
    (add_new_employee seededStore "Zed" "EMP099" "33" "Boss" "9999").2 = true ∧
    (add_new_employee seededStore "Zed" "EMP099" "33" "Boss" "9999").1.num_employees =
      seededStore.num_employees + 1 ∧
    (add_new_employee seededStore "Zed" "EMP099" "33" "Boss" "9999").1.fs =
      write_employee_details seededStore.fs seededStore.num_employees
        ⟨truncField "Zed", truncField "EMP099", truncField "33",
          truncField "Boss", truncField "9999"⟩ ∧
    get_employee_details_by_id
        (add_new_employee seededStore "Zed" "EMP099" "33" "Boss" "9999").1.fs
        zeroRecord (truncField "EMP099") =
      ⟨truncField "Zed", truncField "EMP099", truncField "33",
        truncField "Boss", truncField "9999"⟩ :=
  C5_insert_amended seededStore zeroRecord "Zed" "EMP099" "33" "Boss" "9999"
    (by decide) (by decide) (fun j hj => absurd hj (Nat.not_lt_zero j))

/-- Claim C7, counterexample to the claim as stated: with the same
identifier `"EMP001"` stored in slots 0 and 1, the first delete zeroes
slot 0 and succeeds, but deleting the SAME already-deleted key a second
time does not return NotFound — it finds the duplicate in slot 1 and
succeeds again. -/
theorem C7_delete_twice_counterexample :
    (delete_employee_by_id
        (delete_employee_by_id
            (write_employee_details
              (write_employee_details fsEmpty 0 ⟨"A", "EMP001", "1", "P", "1"⟩)
              1 ⟨"B", "EMP001", "2", "Q", "2"⟩)
            zeroRecord "EMP001").1
        zeroRecord "EMP001").2 = true := rfl

/-- Claim C7, amended: on the first slot whose identifier equals the key,
`delete_employee_by_id` overwrites that slot with the all-zero record and
succeeds; a subsequent read of that slot yields all-empty fields;
`num_employees` is untouched; and the SECOND delete of the same key
returns NotFound PROVIDED the key is non-empty and no other slot reads
back with the same identifier (with duplicate identifiers, or the empty
key over blank slots, the second call succeeds again). -/
theorem C7_delete_amended (st : Store) (junk : EmployeeDetails)
    (employee_id : String) (i₀ : Nat)
    (hid : employee_id ≠ "")
    (hi : i₀ < MAX_ROWS)
    (hmatch : (read_employee_details st.fs i₀ junk).Employee_ID = employee_id)
    (huniq : ∀ j, j < MAX_ROWS → j ≠ i₀ →
      (read_employee_details st.fs j junk).Employee_ID ≠ employee_id) :
    delete_employee_by_id st.fs junk employee_id =
      (write_employee_details st.fs i₀ zeroRecord, true) ∧
    read_employee_details (write_employee_details st.fs i₀ zeroRecord) i₀
        junk = zeroRecord ∧
    (stepOp st (TableOp.deleteOp employee_id junk)).num_employees =
      st.num_employees ∧
    delete_employee_by_id (write_employee_details st.fs i₀ zeroRecord) junk
        employee_id =
      (write_employee_details st.fs i₀ zeroRecord, false) := by
  have hz : read_employee_details (write_employee_details st.fs i₀ zeroRecord)
      i₀ junk = zeroRecord := by
    rw [read_write_same]; rfl
  refine ⟨?_, hz, rfl, ?_⟩
  · exact delete_from_found st.fs junk employee_id MAX_ROWS 0 i₀
      (Nat.zero_le _) (by omega) hmatch
      (fun j _ hj => huniq j (by omega) (by omega))
  · refine delete_from_not_found _ junk employee_id MAX_ROWS 0
      (fun j _ hj => ?_)
    by_cases hje : j = i₀
    · subst hje
      rw [hz]
      exact fun hcontra => hid hcontra.symm
    · rw [read_write_other st.fs i₀ j zeroRecord junk hje]
      exact huniq j (by omega) hje

/-- Claim C7, witness: deleting `"EMP007"` (stored uniquely in slot 6)
from the seeded demo store, then deleting it again. -/
theorem C7_delete_witness :
    delete_employee_by_id seededStore.fs zeroRecord "EMP007" =
      (write_employee_details seededStore.fs 6 zeroRecord, true) ∧
    read_employee_details (write_employee_details seededStore.fs 6 zeroRecord)
        6 zeroRecord = zeroRecord ∧
    (stepOp seededStore (TableOp.deleteOp "EMP007" zeroRecord)).num_employees =
      seededStore.num_employees ∧
    delete_employee_by_id (write_employee_details seededStore.fs 6 zeroRecord)
        zeroRecord "EMP007" =
      (write_employee_details seededStore.fs 6 zeroRecord, false) :=
  C7_delete_amended seededStore zeroRecord "EMP007" 6 (by decide) (by decide)
    (by decide) (by decide)

end Spiffs

namespace Spiffs

/-- Claim C8: the counter `num_employees` (a `Nat` here, so `0 <=` is
built in) stays at most `MAX_ROWS` and never decreases under any table
operation; the only operation that changes it is a below-capacity insert,
and then by exactly `+1`. -/
theorem C8_counter_invariant (st : Store) (op : TableOp)
    (h : st.num_employees ≤ MAX_ROWS) :
    (stepOp st op).num_employees ≤ MAX_ROWS ∧
    st.num_employees ≤ (stepOp st op).num_employees ∧
    ((stepOp st op).num_employees = st.num_employees ∨
      ((stepOp st op).num_employees = st.num_employees + 1 ∧
        st.num_employees < MAX_ROWS ∧
        ∃ name id age position salary,
          op = TableOp.insertOp name id age position salary)) := by
  cases op with
  | writeSlotOp i e => exact ⟨h, le_refl _, Or.inl rfl⟩
  | insertOp name id age position salary =>
    by_cases hc : st.num_employees ≥ MAX_ROWS
    · have hstep : (stepOp st (TableOp.insertOp name id age position salary)) = st := by
        simp [stepOp, add_new_employee, if_pos hc]
      rw [hstep]
      exact ⟨h, le_refl _, Or.inl rfl⟩
    · have hstep :
          (stepOp st (TableOp.insertOp name id age position salary)).num_employees =
            st.num_employees + 1 := by
        simp [stepOp, add_new_employee, if_neg hc]
      rw [hstep]
      exact ⟨by omega, by omega,
        Or.inr ⟨rfl, by omega, name, id, age, position, salary, rfl⟩⟩
  | deleteOp employee_id junk => exact ⟨h, le_refl _, Or.inl rfl⟩
  | findOp employee_id junk => exact ⟨h, le_refl _, Or.inl rfl⟩

/-- Claim C8, witness: one insert step on the seeded store (counter 0)
respects the bound and increments by one. -/
theorem C8_counter_witness :
    seededStore.num_employees ≤ MAX_ROWS ∧
    ((stepOp seededStore (TableOp.insertOp "a" "b" "c" "d" "e")).num_employees ≤
        MAX_ROWS ∧
      seededStore.num_employees ≤
        (stepOp seededStore (TableOp.insertOp "a" "b" "c" "d" "e")).num_employees ∧
      ((stepOp seededStore (TableOp.insertOp "a" "b" "c" "d" "e")).num_employees =
          seededStore.num_employees ∨
        ((stepOp seededStore (TableOp.insertOp "a" "b" "c" "d" "e")).num_employees =
            seededStore.num_employees + 1 ∧
          seededStore.num_employees < MAX_ROWS ∧
          ∃ name id age position salary,
            TableOp.insertOp "a" "b" "c" "d" "e" =
              TableOp.insertOp name id age position salary))) :=
  ⟨by decide, C8_counter_invariant seededStore
    (TableOp.insertOp "a" "b" "c" "d" "e") (by decide)⟩

/-- The `fscanf` chain of `read_employee_details` never touches the mutex. -/
theorem scan_trace_no_lock : ∀ (n : Nat) (content : List Char),
    IOEvent.lockTake ∉ scan_trace n content ∧
      IOEvent.lockGive ∉ scan_trace n content := by
  intro n
  induction n with
  | zero => intro c; simp [scan_trace]
  | succ k ih =>
    intro c
    rcases hsf : scanField c with _ | ⟨f, rest⟩
    · simp [scan_trace, hsf]
    · simp [scan_trace, hsf, (ih rest).1, (ih rest).2]

/-- Claim C9: on every control-flow path of `write_employee_details` and
`read_employee_details` — including the early-return open-failure paths —
the trace is exactly one `lockTake` as the very first event, then
lock-free file work, then exactly one `lockGive` as the very last event:
the mutex is taken once at entry, given back once before returning, and
free again after the call. -/
theorem C9_lock_discipline (openOk : Bool) (file : Option (List Char)) :
    (∃ mid, write_details_trace openOk =
        IOEvent.lockTake :: (mid ++ [IOEvent.lockGive]) ∧
        IOEvent.lockTake ∉ mid ∧ IOEvent.lockGive ∉ mid) ∧
    (∃ mid, read_details_trace file =
        IOEvent.lockTake :: (mid ++ [IOEvent.lockGive]) ∧
        IOEvent.lockTake ∉ mid ∧ IOEvent.lockGive ∉ mid) := by
  constructor
  · cases openOk
    · exact ⟨[IOEvent.openWrite false], by decide⟩
    · exact ⟨[IOEvent.openWrite true, IOEvent.filePrint, IOEvent.fileClose],
        by decide⟩
  · cases file with
    | none => exact ⟨[IOEvent.openRead false], by decide⟩
    | some content =>
      refine ⟨IOEvent.openRead true :: (scan_trace 5 content ++ [IOEvent.fileClose]),
        ?_, ?_, ?_⟩
      · simp [read_details_trace, List.append_assoc]
      · simp [List.mem_cons, List.mem_append,
          (scan_trace_no_lock 5 content).1]
      · simp [List.mem_cons, List.mem_append,
          (scan_trace_no_lock 5 content).2]

end Spiffs
